import Mathlib

/-!
Verification of the sonar-network-dashboard aggregation core.

The definitions below are a shallow embedding of the server-side logic:
`src/routes/api.js` (TTL caches, suppression filtering, the
status-summary/down/warning/suppressed endpoints), `src/routes/suppressions.js`
(suppress/unsuppress routes and cache invalidation), and `server.js`
(`getCustomerEquipmentSummary`, `uniqStrings`, `firstNonEmpty`,
`getDownCustomers` response mapping).  JavaScript numbers used for counts are
modelled as `Int` (counts are integral; subtraction may go negative), JS
timestamps as `Int` milliseconds, and the suppression `Set` of strings as a
`List String` queried with `contains`.
-/

/-- A JavaScript identifier value: Sonar account ids arrive either as strings
or as numbers; the code always compares them via `String(x)`. -/
inductive JsId where
  | str (s : String)
  | num (n : Int)
deriving DecidableEq, Repr

/-- `String(x)` applied to an identifier: its canonical string form. -/
def jsIdString : JsId → String
  | .str s => s
  | .num n => toString n

/-- The record shape produced by the server for one customer
(`getDownCustomers` in `server.js` maps Sonar entities to this shape). -/
structure CustomerRec where
  customerId : JsId
  customerName : String
  status : String
  deviceName : String
  ipAddresses : List String
  address : String
deriving DecidableEq, Repr

/-- `filterSuppressed` from `src/routes/api.js`: keep the customers whose
canonical string id is not in the suppression set. -/
def filterSuppressed (suppressed : List String) (customers : List CustomerRec) :
    List CustomerRec :=
  customers.filter (fun c => !(suppressed.contains (jsIdString c.customerId)))

/-- The `customerEquipment` counts object (raw upstream shape and emitted
shape share these fields). -/
structure CustomerEquipment where
  good : Int
  warning : Int
  uninventoried : Int
  down : Int
  total : Int
deriving DecidableEq, Repr

/-- The `infrastructureEquipment` placeholder object. -/
structure InfrastructureEquipment where
  good : Int
  warning : Int
  bad : Int
  down : Int
deriving DecidableEq, Repr

/-- The summary returned by the sonar service layer before suppression is
applied (`getCustomerEquipmentSummary`); `infrastructureEquipment` may be
absent. -/
structure UpstreamSummary where
  infrastructureEquipment : Option InfrastructureEquipment
  customerEquipment : CustomerEquipment
deriving DecidableEq, Repr

/-- `meta.suppressed` of the status-summary payload. -/
structure SuppressedMeta where
  down : Nat
  warning : Nat
deriving DecidableEq, Repr

/-- The payload built by the `/api/status-summary` handler. -/
structure SummaryPayload where
  infrastructureEquipment : Option InfrastructureEquipment
  customerEquipment : CustomerEquipment
  meta : SuppressedMeta
deriving DecidableEq, Repr

/-- The suppression-aware recomputation performed by the
`/api/status-summary` handler in `src/routes/api.js` (lines 156-204): filter
the raw down/warning lists, derive suppressed counts as raw-length minus
visible-length, shift the raw total by the suppressed counts, and rebuild the
counts object with `good` derived by exact integer arithmetic. -/
def computeStatusSummary (suppressed : List String) (summary : UpstreamSummary)
    (downCustomers warningCustomers : List CustomerRec) : SummaryPayload :=
  let visibleDown :=
    downCustomers.filter (fun c => !(suppressed.contains (jsIdString c.customerId)))
  let visibleWarning :=
    warningCustomers.filter (fun c => !(suppressed.contains (jsIdString c.customerId)))
  let suppressedDown := downCustomers.length - visibleDown.length
  let suppressedWarning := warningCustomers.length - visibleWarning.length
  let visibleTotal : Int :=
    summary.customerEquipment.total - (suppressedDown : Int) - (suppressedWarning : Int)
  { infrastructureEquipment := summary.infrastructureEquipment
    customerEquipment :=
      { down := (visibleDown.length : Int)
        warning := (visibleWarning.length : Int)
        uninventoried := summary.customerEquipment.uninventoried
        good := visibleTotal - (visibleDown.length : Int) - (visibleWarning.length : Int) -
          summary.customerEquipment.uninventoried
        total := visibleTotal }
    meta := { down := suppressedDown, warning := suppressedWarning } }

/-- The generic TTL cache cell made by `makeCache` in `src/routes/api.js`:
a TTL, a timestamp and an optional value (`null` until first populate). -/
structure Cache (α : Type) where
  ttlMs : Int
  ts : Int
  value : Option α
deriving DecidableEq, Repr

/-- `makeCache(ttlMs)`: empty cell with timestamp 0. -/
def makeCache (α : Type) (ttlMs : Int) : Cache α :=
  { ttlMs := ttlMs, ts := 0, value := none }

/-- `cacheFresh(cache)`: the value is non-null and `now - ts < ttlMs`. -/
def cacheFresh {α : Type} (c : Cache α) (now : Int) : Bool :=
  c.value.isSome && decide (now - c.ts < c.ttlMs)

/-- The cache-population step the handlers perform on success
(`cache.ts = Date.now(); cache.value = v`). -/
def cacheSet {α : Type} (c : Cache α) (now : Int) (v : α) : Cache α :=
  { c with ts := now, value := some v }

/-- The read pattern every handler uses: return the stored value when fresh,
otherwise miss. -/
def cacheGet {α : Type} (c : Cache α) (now : Int) : Option α :=
  if cacheFresh c now then c.value else none

/-- Per-cache invalidation as performed by `clearCustomerCaches`
(`cache.ts = 0`): the timestamp is reset to the epoch, the value is kept. -/
def cacheInvalidate {α : Type} (c : Cache α) : Cache α :=
  { c with ts := 0 }

/-- The hardcoded zero-valued summary the `/api/status-summary` error branch
responds with (`customerEquipment` there carries `bad`/`total` fields and no
`uninventoried`, so it gets its own shape). -/
structure ErrorCustomerEquipment where
  good : Int
  warning : Int
  bad : Int
  down : Int
  total : Int
deriving DecidableEq, Repr

/-- The summary object of the error branch of `/api/status-summary`. -/
structure ErrorSummary where
  infrastructureEquipment : InfrastructureEquipment
  customerEquipment : ErrorCustomerEquipment
deriving DecidableEq, Repr

/-- The literal default summary from the catch branch of
`/api/status-summary`: every count is zero. -/
def errorStatusSummary : ErrorSummary :=
  { infrastructureEquipment := { good := 0, warning := 0, bad := 0, down := 0 }
    customerEquipment := { good := 0, warning := 0, bad := 0, down := 0, total := 0 } }

/-- The JSON body (plus HTTP status) sent by `/api/status-summary`.  The
success and error branches attach summaries of different shapes, so the body
carries one optional slot for each. -/
structure StatusSummaryResponse where
  httpStatus : Nat
  ok : Bool
  source : String
  error : Option String
  summary : Option SummaryPayload
  errorSummary : Option ErrorSummary
deriving DecidableEq, Repr

/-- The `meta` object of the down/warning list responses. -/
structure ListMeta where
  raw : Nat
  suppressed : Nat
  visible : Nat
deriving DecidableEq, Repr

/-- The JSON body (plus HTTP status) sent by the customer-list endpoints. -/
structure CustomerListResponse where
  httpStatus : Nat
  ok : Bool
  source : String
  error : Option String
  customers : List CustomerRec
  meta : Option ListMeta
deriving DecidableEq, Repr

/-- The `/api/status-summary` handler of `src/routes/api.js`.  The upstream
`Promise.all` of `getCustomerEquipmentSummary` / `getDownCustomers` /
`getWarningCustomers` is modelled as one `Except`: the handler's `try` block
either receives all three results or lands in `catch`.  Returns the response
together with the summary cache cell after the request. -/
def statusSummaryRoute (suppressed : List String) (cache : Cache SummaryPayload)
    (upstream : Except String (UpstreamSummary × List CustomerRec × List CustomerRec))
    (now : Int) : StatusSummaryResponse × Cache SummaryPayload :=
  if cacheFresh cache now then
    ({ httpStatus := 200, ok := true, source := "cache", error := none,
       summary := cache.value, errorSummary := none }, cache)
  else
    match upstream with
    | .ok (summary, downCustomers, warningCustomers) =>
      let payload := computeStatusSummary suppressed summary downCustomers warningCustomers
      ({ httpStatus := 200, ok := true, source := "sonar", error := none,
         summary := some payload, errorSummary := none },
       cacheSet cache now payload)
    | .error e =>
      ({ httpStatus := 200, ok := false, source := "error", error := some e,
         summary := none, errorSummary := some errorStatusSummary }, cache)

/-- Shared body of the `/api/down-customers` and `/api/warning-customers`
handlers: cache check, fetch, suppression filter, meta counts; on error a
structured failure with an empty list and the cache untouched. -/
def customerListRoute (suppressed : List String) (cache : Cache (List CustomerRec))
    (upstream : Except String (List CustomerRec)) (now : Int) :
    CustomerListResponse × Cache (List CustomerRec) :=
  if cacheFresh cache now then
    ({ httpStatus := 200, ok := true, source := "cache", error := none,
       customers := cache.value.getD [], meta := none }, cache)
  else
    match upstream with
    | .ok customers =>
      let visibleCustomers := filterSuppressed suppressed customers
      ({ httpStatus := 200, ok := true, source := "sonar", error := none,
         customers := visibleCustomers,
         meta := some { raw := customers.length,
                        suppressed := customers.length - visibleCustomers.length,
                        visible := visibleCustomers.length } },
       cacheSet cache now visibleCustomers)
    | .error e =>
      ({ httpStatus := 200, ok := false, source := "error", error := some e,
         customers := [], meta := none }, cache)

/-- The `/api/down-customers` handler. -/
def downCustomersRoute (suppressed : List String) (cache : Cache (List CustomerRec))
    (upstream : Except String (List CustomerRec)) (now : Int) :
    CustomerListResponse × Cache (List CustomerRec) :=
  customerListRoute suppressed cache upstream now

/-- The `/api/warning-customers` handler (same body as the down handler). -/
def warningCustomersRoute (suppressed : List String) (cache : Cache (List CustomerRec))
    (upstream : Except String (List CustomerRec)) (now : Int) :
    CustomerListResponse × Cache (List CustomerRec) :=
  customerListRoute suppressed cache upstream now

/-- The `/api/suppressed-customers` handler: empty suppression set short
circuits locally; otherwise the resolved customers (or a structured failure)
are returned.  No cache is involved. -/
def suppressedCustomersRoute (suppressed : List String)
    (upstream : Except String (List CustomerRec)) : CustomerListResponse :=
  if suppressed.isEmpty then
    { httpStatus := 200, ok := true, source := "local", error := none,
      customers := [], meta := none }
  else
    match upstream with
    | .ok customers =>
      { httpStatus := 200, ok := true, source := "sonar", error := none,
        customers := customers, meta := none }
    | .error e =>
      { httpStatus := 200, ok := false, source := "error", error := some e,
        customers := [], meta := none }

/-- The module-level mutable state shared by the routes: the suppression set
and the three TTL caches of `src/routes/api.js`. -/
structure AppState where
  suppressedAccounts : List String
  summaryCache : Cache SummaryPayload
  downCache : Cache (List CustomerRec)
  warningCache : Cache (List CustomerRec)
deriving DecidableEq, Repr

/-- `clearCustomerCaches` from `src/routes/api.js`: reset the timestamps of
the summary, down and warning caches to 0. -/
def clearCustomerCaches (s : AppState) : AppState :=
  { s with
    summaryCache := cacheInvalidate s.summaryCache
    downCache := cacheInvalidate s.downCache
    warningCache := cacheInvalidate s.warningCache }

/-- Modelled from the spec: `suppressAccount` of
`src/services/suppressionStore.js` is not among the sources; the spec
describes the store as an in-memory set abstraction with add/remove, so
adding inserts the id when it is not yet a member. -/
def suppressAccount (suppressed : List String) (id : String) : List String :=
  if suppressed.contains id then suppressed else suppressed ++ [id]

/-- Modelled from the spec: `unsuppressAccount` of
`src/services/suppressionStore.js` is not among the sources; removal deletes
the id from the set. -/
def unsuppressAccount (suppressed : List String) (id : String) : List String :=
  suppressed.filter (fun x => !(x = id))

/-- `POST /api/suppressions/accounts/:id` from `src/routes/suppressions.js`:
mutate the store, then `clearCustomerCaches()`. -/
def suppressAccountRoute (s : AppState) (id : String) : AppState :=
  clearCustomerCaches { s with suppressedAccounts := suppressAccount s.suppressedAccounts id }

/-- `DELETE /api/suppressions/accounts/:id` from `src/routes/suppressions.js`:
mutate the store, then `clearCustomerCaches()`. -/
def unsuppressAccountRoute (s : AppState) (id : String) : AppState :=
  clearCustomerCaches { s with suppressedAccounts := unsuppressAccount s.suppressedAccounts id }

/-- The per-category `page_info.total_count` numbers of a Sonar `full_list`
response; a missing field is modelled as `none`. -/
structure SonarCountsData where
  total : Option Int
  good : Option Int
  warning : Option Int
  down : Option Int
  uninventoried_only : Option Int
deriving DecidableEq, Repr

/-- `pickCount` from `server.js`: `node?.page_info?.total_count ?? 0`. -/
def pickCount (node : Option Int) : Int :=
  node.getD 0

/-- `getCustomerEquipmentSummary` from `server.js`: fail fast when the
endpoint or token is missing or empty (JS falsiness of `process.env` reads),
otherwise map the transport result; a transport error propagates as the
operation's error. -/
def getCustomerEquipmentSummary (endpoint token : Option String)
    (request : Except String SonarCountsData) : Except String UpstreamSummary :=
  if endpoint.getD "" = "" || token.getD "" = "" then
    .error "Missing SONAR_ENDPOINT or SONAR_TOKEN in .env"
  else
    match request with
    | .error e => .error e
    | .ok data =>
      .ok { infrastructureEquipment := none
            customerEquipment :=
              { good := pickCount data.good
                warning := pickCount data.warning
                uninventoried := pickCount data.uninventoried_only
                down := pickCount data.down
                total := pickCount data.total } }

/-- The characters removed by JavaScript's `String.prototype.trim`
(ASCII whitespace plus NBSP, modelled for the character range the data
uses). -/
def isJsWhitespace (c : Char) : Bool :=
  c = ' ' || c = '\t' || c = '\n' || c = '\r' ||
    c = Char.ofNat 11 || c = Char.ofNat 12 || c = Char.ofNat 160

/-- The character-list form of `trim`: drop whitespace from the front, then
from the back. -/
def trimChars (l : List Char) : List Char :=
  ((l.dropWhile isJsWhitespace).reverse.dropWhile isJsWhitespace).reverse

/-- `String(v).trim()`: strip leading and trailing whitespace. -/
def jsTrim (s : String) : String :=
  ⟨trimChars s.data⟩

/-- `String(v || "")` for the values flowing into `uniqStrings` /
`firstNonEmpty`: a missing (`undefined`/`null`) or empty value becomes the
empty string. -/
def jsStr (v : Option String) : String :=
  v.getD ""

/-- Recursive worker for `uniqStrings`, carrying the `seen` set. -/
def uniqStringsAux : List (Option String) → List String → List String
  | [], _ => []
  | v :: rest, seen =>
    let s := jsTrim (jsStr v)
    if s = "" then uniqStringsAux rest seen
    else if seen.contains s then uniqStringsAux rest seen
    else s :: uniqStringsAux rest (s :: seen)

/-- `uniqStrings` from `server.js`: trim each entry, drop empties, and keep
the first occurrence of each distinct string in input order. -/
def uniqStrings (list : List (Option String)) : List String :=
  uniqStringsAux list []

/-- `firstNonEmpty` from `server.js`, as invoked on the (string) address
lines: return the trim of the first entry whose trim is non-empty, the empty
string if there is none. -/
def firstNonEmpty : List String → String
  | [] => ""
  | v :: rest =>
    let s := jsTrim v
    if s = "" then firstNonEmpty rest else s

/-- One Sonar account entity as consumed by the `getDownCustomers` mapping:
id, optional name, `addresses.entities[].line1` and
`ip_assignment_histories.entities[].subnet` (each possibly missing). -/
structure SonarAccountEntity where
  id : JsId
  name : Option String
  addressLine1s : List (Option String)
  subnets : List (Option String)
deriving DecidableEq, Repr

/-- The per-entity mapping inside `getDownCustomers` in `server.js`:
`a?.name || "(unknown)"`, deduplicated address lines with the first non-empty
line displayed, deduplicated subnets as `ipAddresses`. -/
def mapDownAccount (a : SonarAccountEntity) : CustomerRec :=
  let addressLines := uniqStrings a.addressLine1s
  { customerId := a.id
    customerName := if jsStr a.name = "" then "(unknown)" else jsStr a.name
    status := "Down"
    deviceName := "—"
    ipAddresses := uniqStrings a.subnets
    address := firstNonEmpty addressLines }

/-- Spec-side reference function for C9, following the spec's words
"deduplicated, first-non-empty chosen for display": keep the first occurrence
of each string, dropping the later duplicates. -/
def dedupKeepFirst : List String → List String
  | [] => []
  | a :: l => a :: dedupKeepFirst (l.filter (fun x => !(x = a)))
termination_by l => l.length
decreasing_by
  simp only [List.length_cons]
  exact Nat.lt_succ_of_le (List.length_filter_le _ _)

/-- Spec-side reference for the cleaning pass of `uniqStrings`: trim every
entry and drop the (whitespace-)empty ones. -/
def cleanedStrings (list : List (Option String)) : List String :=
  (list.map (fun v => jsTrim (jsStr v))).filter (fun s => !(s = ""))

/-- Modelled from the spec: the per-index result of the Bounded Fetcher
(`getCustomersByIds` in `src/services/sonarService.js` is not among the
sources).  `fetchOne` yields a record list or an error; a failed identifier
contributes zero records, and each position of the identifier sequence is
resolved independently (duplicates keep their own slots). -/
def fetchResultsAt {ι ε ρ : Type} (fetchOne : ι → Except ε (List ρ)) (ids : List ι)
    (i : Nat) : List ρ :=
  match ids[i]? with
  | none => []
  | some id =>
    match fetchOne id with
    | .ok rs => rs
    | .error _ => []

/-- Modelled from the spec: the shared state of the Bounded Fetcher's worker
pool — the shared cursor over the identifier sequence, the indices currently
in flight, and the results collected so far, tagged with their claimed
index in completion order. -/
structure FetcherState (ρ : Type) where
  cursor : Nat
  busy : List Nat
  done : List (Nat × List ρ)
deriving DecidableEq, Repr

/-- Modelled from the spec: spawn `min(C, N)` workers, each initially holding
one of the first `min(C, N)` indices; the cursor points past them. -/
def fetcherInit (ρ : Type) (n c : Nat) : FetcherState ρ :=
  { cursor := min c n, busy := List.range (min c n), done := [] }

/-- Modelled from the spec: one completion event.  The `k`-th in-flight
worker finishes its claimed index `i`, appends `fetchOne`'s records tagged
with `i`, and claims the next unclaimed index if one remains (otherwise the
worker retires).  An out-of-range `k` is a stutter step. -/
def fetcherStep {ι ε ρ : Type} (fetchOne : ι → Except ε (List ρ)) (ids : List ι)
    (σ : FetcherState ρ) (k : Nat) : FetcherState ρ :=
  match σ.busy[k]? with
  | none => σ
  | some i =>
    let busyRest := σ.busy.eraseIdx k
    let done1 := σ.done ++ [(i, fetchResultsAt fetchOne ids i)]
    if σ.cursor < ids.length then
      { cursor := σ.cursor + 1, busy := busyRest ++ [σ.cursor], done := done1 }
    else
      { cursor := σ.cursor, busy := busyRest, done := done1 }

/-- Modelled from the spec: run the pool under a completion schedule (the
sequence of choices of which in-flight worker finishes next); the schedule
captures the nondeterministic completion order. -/
def fetcherRun {ι ε ρ : Type} (fetchOne : ι → Except ε (List ρ)) (ids : List ι)
    (σ : FetcherState ρ) (sched : List Nat) : FetcherState ρ :=
  sched.foldl (fetcherStep fetchOne ids) σ

/-- Modelled from the spec: once the workers finish, the collected tagged
results are sorted by their original index (stable) and flattened. -/
def boundedFetchOutput {ρ : Type} (σ : FetcherState ρ) : List ρ :=
  ((σ.done.mergeSort (fun a b => decide (a.1 ≤ b.1))).map Prod.snd).flatten

/-- The invariant of the Bounded Fetcher pool: the in-flight set respects
the concurrency ceiling, the cursor never passes the end, the pool only
drains once the cursor is exhausted, every index is claimed exactly once
(the done tags, the in-flight indices and the unclaimed range partition
`range N`), and every collected entry holds `fetchOne`'s records for its
tag. -/
def FetcherInv {ι ε ρ : Type} (fetchOne : ι → Except ε (List ρ)) (ids : List ι)
    (c : Nat) (σ : FetcherState ρ) : Prop :=
  σ.busy.length ≤ min c ids.length ∧
  σ.cursor ≤ ids.length ∧
  (σ.cursor < ids.length → σ.busy ≠ []) ∧
  (σ.done.map Prod.fst ++ σ.busy ++
      List.range' σ.cursor (ids.length - σ.cursor)).Perm (List.range ids.length) ∧
  (∀ p ∈ σ.done, p.2 = fetchResultsAt fetchOne ids p.1)

/-- Concrete fetch operation used to witness the fetcher theorems: the
identifier appearing twice yields one record, the other yields two. -/
def fetchOneExample (id : String) : Except String (List String) :=
  if id = "3" then .ok ["r3a", "r3b"] else .ok ["r" ++ id]

/-- The duplicate-bearing identifier batch from the spec's test scenario. -/
def idsExample : List String := ["9", "9", "3"]

/-- Concrete fetch operation failing on one identifier, used to witness the
fault-tolerance theorem. -/
def fetchOneFailExample (id : String) : Except String (List String) :=
  if id = "9" then .error "boom" else .ok ["r" ++ id]

/-- The summary computed on the counterexample refresh for claim C1: the raw
aggregate reports five down accounts while the raw down list carries only
two entries (one of them suppressed), which the paginated down query
permits. -/
def downIdentityCexPayload : SummaryPayload :=
  computeStatusSummary ["1"]
    { infrastructureEquipment := none
      customerEquipment :=
        { good := 5, warning := 0, uninventoried := 0, down := 5, total := 10 } }
    [{ customerId := .num 1, customerName := "a", status := "Down",
       deviceName := "x", ipAddresses := [], address := "" },
     { customerId := .num 2, customerName := "b", status := "Down",
       deviceName := "x", ipAddresses := [], address := "" }]
    []

/-- A sample payload used by the concrete cache witnesses. -/
def payloadExample : SummaryPayload :=
  { infrastructureEquipment := none
    customerEquipment :=
      { good := 1489, warning := 9, uninventoried := 1, down := 70, total := 1569 }
    meta := { down := 1, warning := 0 } }

/-- A list is a permutation of the element at an index consed onto the list
with that index erased. -/
theorem perm_cons_eraseIdx {α : Type} : ∀ (l : List α) (k : Nat) (a : α),
    l[k]? = some a → l.Perm (a :: l.eraseIdx k)
  | b :: t, 0, a, h => by
    simp only [List.getElem?_cons_zero, Option.some.injEq] at h
    subst h
    simp [List.eraseIdx]
  | b :: t, k + 1, a, h => by
    simp only [List.getElem?_cons_succ] at h
    have ih := perm_cons_eraseIdx t k a h
    simpa [List.eraseIdx] using (ih.cons b).trans (List.Perm.swap a b _)

/-- The initial pool state satisfies the fetcher invariant (for a positive
concurrency ceiling). -/
theorem fetcherInit_inv {ι ε ρ : Type} (fetchOne : ι → Except ε (List ρ)) (ids : List ι)
    (c : Nat) (hc : 1 ≤ c) : FetcherInv fetchOne ids c (fetcherInit ρ ids.length c) := by
  refine ⟨by simp [fetcherInit], by simp [fetcherInit], ?_, ?_, by simp [fetcherInit]⟩
  · simp only [fetcherInit, ne_eq, List.range_eq_nil]
    intro hlt h0
    omega
  · simp only [fetcherInit, List.map_nil, List.nil_append]
    rw [List.range_eq_range', List.range_eq_range']
    have happ := List.range'_append 0 (min c ids.length) (ids.length - min c ids.length) 1
    simp only [Nat.one_mul, Nat.zero_add] at happ
    rw [happ, show ids.length - min c ids.length + min c ids.length = ids.length by omega]

/-- Every completion event preserves the fetcher invariant. -/
theorem fetcherStep_inv {ι ε ρ : Type} {fetchOne : ι → Except ε (List ρ)} {ids : List ι}
    {c : Nat} {σ : FetcherState ρ} (hinv : FetcherInv fetchOne ids c σ) (k : Nat) :
    FetcherInv fetchOne ids c (fetcherStep fetchOne ids σ k) := by
  obtain ⟨h1, h2, h3, h4, h5⟩ := hinv
  unfold fetcherStep
  cases hget : σ.busy[k]? with
  | none => exact ⟨h1, h2, h3, h4, h5⟩
  | some i =>
    dsimp only
    have hk : k < σ.busy.length := by
      rcases List.getElem?_eq_some_iff.mp hget with ⟨h, _⟩
      exact h
    have hlen : (σ.busy.eraseIdx k).length = σ.busy.length - 1 := by
      rw [List.length_eraseIdx]
      simp [hk]
    have hperm : σ.busy.Perm (i :: σ.busy.eraseIdx k) := perm_cons_eraseIdx _ _ _ hget
    have hdone : ∀ p ∈ σ.done ++ [(i, fetchResultsAt fetchOne ids i)],
        p.2 = fetchResultsAt fetchOne ids p.1 := by
      intro p hp
      rcases List.mem_append.mp hp with hp | hp
      · exact h5 p hp
      · rcases List.mem_singleton.mp hp with rfl
        rfl
    by_cases hcur : σ.cursor < ids.length
    · rw [if_pos hcur]
      have hr : List.range' σ.cursor (ids.length - σ.cursor) =
          σ.cursor :: List.range' (σ.cursor + 1) (ids.length - (σ.cursor + 1)) := by
        rw [show ids.length - σ.cursor = (ids.length - (σ.cursor + 1)) + 1 by omega,
          List.range'_succ]
      refine ⟨?_, by dsimp only ; omega, by intro _ ; simp, ?_, by simpa using hdone⟩
      · dsimp only
        rw [List.length_append, hlen]
        simp only [List.length_cons, List.length_nil]
        omega
      · dsimp only
        have key : List.Perm
            (σ.done.map Prod.fst ++ (i :: (σ.busy.eraseIdx k ++ σ.cursor ::
              List.range' (σ.cursor + 1) (ids.length - (σ.cursor + 1)))))
            (σ.done.map Prod.fst ++ σ.busy ++
              List.range' σ.cursor (ids.length - σ.cursor)) := by
          rw [hr, List.append_assoc]
          exact List.Perm.append_left _ ((hperm.append_right _).symm)
        refine List.Perm.trans ?_ (key.trans h4)
        simp
    · rw [if_neg hcur]
      refine ⟨by dsimp only ; omega, by dsimp only ; omega,
        by intro h ; exact absurd h hcur, ?_, by simpa using hdone⟩
      dsimp only
      have key : List.Perm
          (σ.done.map Prod.fst ++ (i :: (σ.busy.eraseIdx k ++
            List.range' σ.cursor (ids.length - σ.cursor))))
          (σ.done.map Prod.fst ++ σ.busy ++
            List.range' σ.cursor (ids.length - σ.cursor)) := by
        rw [List.append_assoc]
        exact List.Perm.append_left _ ((hperm.append_right _).symm)
      refine List.Perm.trans ?_ (key.trans h4)
      simp

/-- Running any completion schedule preserves the fetcher invariant. -/
theorem fetcherRun_inv {ι ε ρ : Type} {fetchOne : ι → Except ε (List ρ)} {ids : List ι}
    {c : Nat} : ∀ (sched : List Nat) (σ : FetcherState ρ),
    FetcherInv fetchOne ids c σ → FetcherInv fetchOne ids c (fetcherRun fetchOne ids σ sched)
  | [], _, h => h
  | k :: sched, _, h => fetcherRun_inv sched _ (fetcherStep_inv h k)

/-- A list of tagged results whose payloads are determined by their tags is
the image of its tag list. -/
theorem pairs_eq_of_snd_determined {ρ : Type} (f : Nat → List ρ) :
    ∀ (l : List (Nat × List ρ)), (∀ p ∈ l, p.2 = f p.1) →
      l = (l.map Prod.fst).map (fun i => (i, f i))
  | [], _ => rfl
  | p :: l, h => by
    have hp := h p (List.mem_cons_self p l)
    have ih := pairs_eq_of_snd_determined f l (fun q hq => h q (List.mem_cons_of_mem p hq))
    simp only [List.map_cons]
    rw [← ih, ← hp]

/-- Once the pool has drained, sorting by original index recovers exactly the
per-index results in input order, regardless of the completion order in which
`done` was collected. -/
theorem fetcher_complete_output {ι ε ρ : Type} {fetchOne : ι → Except ε (List ρ)}
    {ids : List ι} {c : Nat} {σ : FetcherState ρ}
    (hinv : FetcherInv fetchOne ids c σ) (hb : σ.busy = []) :
    boundedFetchOutput σ =
      ((List.range ids.length).map (fetchResultsAt fetchOne ids)).flatten := by
  obtain ⟨h1, h2, h3, h4, h5⟩ := hinv
  have hcN : σ.cursor = ids.length := by
    by_contra hne
    exact h3 (by omega) hb
  rw [hb, hcN] at h4
  simp only [Nat.sub_self, List.range'_zero, List.append_nil] at h4
  have htrans : ∀ (a b c : Nat × List ρ), (fun a b => decide (a.1 ≤ b.1)) a b = true →
      (fun a b => decide (a.1 ≤ b.1)) b c = true →
      (fun a b => decide (a.1 ≤ b.1)) a c = true := by
    intro a b c hab hbc
    simp only [decide_eq_true_eq] at hab hbc ⊢
    omega
  have htotal : ∀ (a b : Nat × List ρ),
      ((fun a b => decide (a.1 ≤ b.1)) a b || (fun a b => decide (a.1 ≤ b.1)) b a) = true := by
    intro a b
    simp only [Bool.or_eq_true, decide_eq_true_eq]
    omega
  have hsp : (σ.done.mergeSort (fun a b => decide (a.1 ≤ b.1))).Perm σ.done :=
    List.mergeSort_perm _ _
  have hpair := List.sorted_mergeSort htrans htotal σ.done
  have hkeysorted :
      List.Sorted (fun a b => a ≤ b)
        ((σ.done.mergeSort (fun a b => decide (a.1 ≤ b.1))).map Prod.fst) := by
    rw [List.Sorted, List.pairwise_map]
    exact hpair.imp (fun h => by simpa using h)
  have hkeyperm :
      ((σ.done.mergeSort (fun a b => decide (a.1 ≤ b.1))).map Prod.fst).Perm
        (List.range ids.length) := (hsp.map _).trans h4
  have hkeys : (σ.done.mergeSort (fun a b => decide (a.1 ≤ b.1))).map Prod.fst =
      List.range ids.length := by
    refine List.eq_of_perm_of_sorted hkeyperm hkeysorted ?_
    rw [List.Sorted]
    exact (List.pairwise_lt_range _).imp Nat.le_of_lt
  have hentries : ∀ p ∈ σ.done.mergeSort (fun a b => decide (a.1 ≤ b.1)),
      p.2 = fetchResultsAt fetchOne ids p.1 := by
    intro p hp
    exact h5 p (List.mem_mergeSort.mp hp)
  have hform := pairs_eq_of_snd_determined (fetchResultsAt fetchOne ids) _ hentries
  rw [hkeys] at hform
  unfold boundedFetchOutput
  rw [hform]
  rw [List.map_map]
  rfl

/-- Claim C7: for an identifier sequence of length N and concurrency ceiling
C with 1 <= C <= N, the Bounded Fetcher keeps at most min(C, N) fetches in
flight at every reachable state, and whenever a completion schedule drains
the pool, the flattened output lists each position's records contiguously in
input order — duplicates keep their own positional slots — regardless of the
completion order. -/
theorem boundedFetcher_concurrency_and_ordering {ι ε ρ : Type}
    (ids : List ι) (c : Nat) (fetchOne : ι → Except ε (List ρ)) (sched : List Nat)
    (hc1 : 1 ≤ c) (hcn : c ≤ ids.length) :
    (fetcherRun fetchOne ids (fetcherInit ρ ids.length c) sched).busy.length ≤
      min c ids.length ∧
    ((fetcherRun fetchOne ids (fetcherInit ρ ids.length c) sched).busy = [] →
      boundedFetchOutput (fetcherRun fetchOne ids (fetcherInit ρ ids.length c) sched) =
        ((List.range ids.length).map (fetchResultsAt fetchOne ids)).flatten) := by
  have hmin : min c ids.length ≤ ids.length := Nat.min_le_right c ids.length
  have hinv := fetcherRun_inv sched _ (fetcherInit_inv fetchOne ids c hc1)
  exact ⟨hinv.1, fun hb => fetcher_complete_output hinv hb⟩

/-- Witness for C7 at the spec's duplicate scenario: identifiers
`["9", "9", "3"]`, concurrency 2, and a schedule that completes the second
in-flight request first still yields the input-ordered output. -/
theorem boundedFetcher_concurrency_and_ordering_witness :
    boundedFetchOutput (fetcherRun fetchOneExample idsExample
        (fetcherInit String idsExample.length 2) [1, 0, 0]) =
      ((List.range idsExample.length).map
        (fetchResultsAt fetchOneExample idsExample)).flatten :=
  (boundedFetcher_concurrency_and_ordering idsExample 2 fetchOneExample [1, 0, 0]
    (by decide) (by decide)).2 (by decide)

/-- Claim C8: when `fetchOne` fails on a strict subset of the identifiers,
the batch still completes: failed identifiers contribute zero records, the
output is exactly the flattened per-position results in input order (so the
succeeding identifiers' records appear in correct relative order), and every
position is attempted exactly once (no retry within the batch). -/
theorem boundedFetcher_fault_tolerance {ι ε ρ : Type}
    (ids : List ι) (c : Nat) (fetchOne : ι → Except ε (List ρ)) (sched : List Nat)
    (hc1 : 1 ≤ c) (hcn : c ≤ ids.length)
    (hfail : ∃ id ∈ ids, ∃ e, fetchOne id = .error e)
    (hsucc : ∃ id ∈ ids, ∃ rs, fetchOne id = .ok rs)
    (hdrained : (fetcherRun fetchOne ids (fetcherInit ρ ids.length c) sched).busy = []) :
    (∀ (i : Nat) (id : ι) (e : ε), ids[i]? = some id → fetchOne id = .error e →
        fetchResultsAt fetchOne ids i = []) ∧
    boundedFetchOutput (fetcherRun fetchOne ids (fetcherInit ρ ids.length c) sched) =
      ((List.range ids.length).map (fetchResultsAt fetchOne ids)).flatten ∧
    ((fetcherRun fetchOne ids (fetcherInit ρ ids.length c) sched).done.map Prod.fst).Perm
      (List.range ids.length) := by
  have hinv := fetcherRun_inv sched _ (fetcherInit_inv fetchOne ids c hc1)
  refine ⟨?_, fetcher_complete_output hinv hdrained, ?_⟩
  · intro i id e hid he
    simp [fetchResultsAt, hid, he]
  · obtain ⟨h1, h2, h3, h4, h5⟩ := hinv
    have hcN : (fetcherRun fetchOne ids (fetcherInit ρ ids.length c) sched).cursor =
        ids.length := by
      by_contra hne
      exact h3 (by omega) hdrained
    rw [hdrained, hcN] at h4
    simpa using h4

/-- Witness for C8: with the first identifier failing and the third
succeeding, the drained run returns the surviving records in order. -/
theorem boundedFetcher_fault_tolerance_witness :
    boundedFetchOutput (fetcherRun fetchOneFailExample idsExample
        (fetcherInit String idsExample.length 2) [1, 0, 0]) =
      ((List.range idsExample.length).map
        (fetchResultsAt fetchOneFailExample idsExample)).flatten :=
  (boundedFetcher_fault_tolerance idsExample 2 fetchOneFailExample [1, 0, 0]
    (by decide) (by decide)
    ⟨"9", by decide, "boom", rfl⟩
    ⟨"3", by decide, ["r3"], rfl⟩
    (by decide)).2.1

/-- Splitting a list by a predicate splits its length. -/
theorem length_filter_not_add_length_filter {α : Type} (p : α → Bool) :
    ∀ (l : List α), (l.filter (fun a => !(p a))).length + (l.filter p).length = l.length
  | [] => rfl
  | a :: l => by
    have ih := length_filter_not_add_length_filter p l
    by_cases h : p a = true
    · simp [List.filter, h]
      omega
    · simp only [Bool.not_eq_true] at h
      simp [List.filter, h]
      omega

/-- Claim C1 counterexample: on this successful refresh the emitted summary
has `visibleDown = 1` and `suppressedDown = 1`, but `rawSummary.down = 5`,
so `visibleDown + suppressedDown == rawSummary.down` fails — the handler
derives `down` from the (possibly shorter, paginated) raw down list, not
from the aggregate count. -/
theorem statusSummary_down_identity_cex :
    ¬ (downIdentityCexPayload.customerEquipment.down +
        (downIdentityCexPayload.meta.down : Int) = 5) := by decide

/-- Claim C1 (amended): for every successful refresh the emitted summary
satisfies `visibleTotal == rawSummary.total - suppressedDown -
suppressedWarning` exactly, and `visibleDown + suppressedDown` equals the
length of the raw down list (symmetrically for warning) — with
`rawSummary.down` replaced by the raw down list's length, which coincides
with `rawSummary.down` exactly when the down list is consistent with the
aggregate count.  `suppressedDown`/`suppressedWarning` do count the
suppressed members of the raw lists. -/
theorem statusSummary_aggregate_identity (suppressed : List String)
    (summary : UpstreamSummary) (downCustomers warningCustomers : List CustomerRec) :
    (computeStatusSummary suppressed summary downCustomers
        warningCustomers).customerEquipment.total =
      summary.customerEquipment.total -
        ((computeStatusSummary suppressed summary downCustomers
            warningCustomers).meta.down : Int) -
        ((computeStatusSummary suppressed summary downCustomers
            warningCustomers).meta.warning : Int) ∧
    (computeStatusSummary suppressed summary downCustomers
        warningCustomers).customerEquipment.down +
      ((computeStatusSummary suppressed summary downCustomers
          warningCustomers).meta.down : Int) = (downCustomers.length : Int) ∧
    (computeStatusSummary suppressed summary downCustomers
        warningCustomers).customerEquipment.warning +
      ((computeStatusSummary suppressed summary downCustomers
          warningCustomers).meta.warning : Int) = (warningCustomers.length : Int) ∧
    (computeStatusSummary suppressed summary downCustomers warningCustomers).meta.down =
      (downCustomers.filter
        (fun c => suppressed.contains (jsIdString c.customerId))).length ∧
    (computeStatusSummary suppressed summary downCustomers warningCustomers).meta.warning =
      (warningCustomers.filter
        (fun c => suppressed.contains (jsIdString c.customerId))).length := by
  have hd := List.length_filter_le
    (fun c => !(suppressed.contains (jsIdString c.customerId))) downCustomers
  have hw := List.length_filter_le
    (fun c => !(suppressed.contains (jsIdString c.customerId))) warningCustomers
  have hd2 := length_filter_not_add_length_filter
    (fun c => suppressed.contains (jsIdString c.customerId)) downCustomers
  have hw2 := length_filter_not_add_length_filter
    (fun c => suppressed.contains (jsIdString c.customerId)) warningCustomers
  refine ⟨rfl, ?_, ?_, ?_, ?_⟩ <;> simp only [computeStatusSummary] <;> omega

/-- Claim C2: every emitted summary satisfies
`good = total - down - warning - uninventoried` in exact integer arithmetic,
`uninventoried` passes through from the raw summary unchanged, and `good` is
not clamped — inconsistent inputs genuinely produce a negative `good`. -/
theorem customerEquipment_good_identity :
    (∀ (suppressed : List String) (summary : UpstreamSummary)
        (downCustomers warningCustomers : List CustomerRec),
      (computeStatusSummary suppressed summary downCustomers
          warningCustomers).customerEquipment.good =
        (computeStatusSummary suppressed summary downCustomers
            warningCustomers).customerEquipment.total -
          (computeStatusSummary suppressed summary downCustomers
              warningCustomers).customerEquipment.down -
          (computeStatusSummary suppressed summary downCustomers
              warningCustomers).customerEquipment.warning -
          (computeStatusSummary suppressed summary downCustomers
              warningCustomers).customerEquipment.uninventoried ∧
      (computeStatusSummary suppressed summary downCustomers
          warningCustomers).customerEquipment.uninventoried =
        summary.customerEquipment.uninventoried) ∧
    (∃ (suppressed : List String) (summary : UpstreamSummary)
        (downCustomers warningCustomers : List CustomerRec),
      (computeStatusSummary suppressed summary downCustomers
          warningCustomers).customerEquipment.good < 0) := by
  constructor
  · intro suppressed summary downCustomers warningCustomers
    exact ⟨rfl, rfl⟩
  · exact ⟨[], ⟨none, ⟨0, 0, 5, 0, 0⟩⟩, [], [], by decide⟩

/-- Claim C3: the suppression filter keeps exactly the records whose
canonical string identifier is outside the suppression set, preserves the
input's relative order (it yields a sublist), and the reported suppressed
count — raw length minus visible length — complements the visible length
back to the raw length. -/
theorem filterSuppressed_spec (suppressed : List String) (customers : List CustomerRec) :
    (∀ c, c ∈ filterSuppressed suppressed customers ↔
      c ∈ customers ∧ ¬ jsIdString c.customerId ∈ suppressed) ∧
    (filterSuppressed suppressed customers).Sublist customers ∧
    (filterSuppressed suppressed customers).length +
        (customers.length - (filterSuppressed suppressed customers).length) =
      customers.length := by
  refine ⟨?_, List.filter_sublist _, ?_⟩
  · intro c
    simp [filterSuppressed, List.mem_filter]
  · have := List.length_filter_le
      (fun c => !(suppressed.contains (jsIdString c.customerId))) customers
    unfold filterSuppressed
    omega

/-- An invalidated cache cell (timestamp 0) misses for every wall-clock
instant at least one TTL after the epoch. -/
theorem cacheGet_of_ts_zero {α : Type} (c : Cache α) (now : Int)
    (hts : c.ts = 0) (httl : c.ttlMs ≤ now) : cacheGet c now = none := by
  have hnot : ¬(now - c.ts < c.ttlMs) := by omega
  have hfresh : cacheFresh c now = false := by
    simp [cacheFresh, hnot]
  simp [cacheGet, hfresh]

/-- Claim C4: for each TTL cache instance, a get within the TTL window after
a set returns the stored value — and a fresh summary cache is served with
source "cache" — a get after the TTL has elapsed misses, and after an
invalidation the very next get misses even when the invalidation
immediately followed a set (the timestamp is reset to epoch 0, which cannot
be fresh once the wall clock is at least one TTL past the epoch). -/
theorem ttlCache_freshness :
    (∀ (α : Type) (c : Cache α) (v : α) (t t1 : Int),
      t1 - t < c.ttlMs → cacheGet (cacheSet c t v) t1 = some v) ∧
    (∀ (α : Type) (c : Cache α) (v : α) (t t1 : Int),
      c.ttlMs ≤ t1 - t → cacheGet (cacheSet c t v) t1 = none) ∧
    (∀ (α : Type) (c : Cache α) (v : α) (t now : Int),
      c.ttlMs ≤ now → cacheGet (cacheInvalidate (cacheSet c t v)) now = none) ∧
    (∀ (suppressed : List String) (cache : Cache SummaryPayload)
        (upstream : Except String (UpstreamSummary × List CustomerRec × List CustomerRec))
        (now : Int),
      cacheFresh cache now = true →
        (statusSummaryRoute suppressed cache upstream now).1.source = "cache" ∧
        (statusSummaryRoute suppressed cache upstream now).1.summary = cache.value) := by
  refine ⟨?_, ?_, ?_, ?_⟩
  · intro α c v t t1 h
    simp [cacheGet, cacheFresh, cacheSet, h]
  · intro α c v t t1 h
    simp [cacheGet, cacheFresh, cacheSet, show ¬(t1 - t < c.ttlMs) by omega]
  · intro α c v t now h
    exact cacheGet_of_ts_zero _ _ rfl h
  · intro suppressed cache upstream now h
    simp [statusSummaryRoute, h]

/-- Witness for C4 on a concrete cache: a get 500 ms after the set hits and
the fresh summary endpoint reports source "cache"; a get one TTL later
misses; a get after an immediate invalidation misses. -/
theorem ttlCache_freshness_witness :
    cacheGet (cacheSet (makeCache Nat 60000) 1000 7) 1500 = some 7 ∧
    cacheGet (cacheSet (makeCache Nat 60000) 1000 7) 61000 = none ∧
    cacheGet (cacheInvalidate (cacheSet (makeCache Nat 60000) 1000 7)) 60000 = none ∧
    (statusSummaryRoute [] ⟨60000, 0, some payloadExample⟩ (.error "x") 100).1.source =
      "cache" :=
  ⟨ttlCache_freshness.1 Nat (makeCache Nat 60000) 7 1000 1500 (by decide),
   ttlCache_freshness.2.1 Nat (makeCache Nat 60000) 7 1000 61000 (by decide),
   ttlCache_freshness.2.2.1 Nat (makeCache Nat 60000) 7 1000 60000 (by decide),
   (ttlCache_freshness.2.2.2 [] ⟨60000, 0, some payloadExample⟩ (.error "x") 100
     (by decide)).1⟩

/-- Claim C5: when the upstream request of a summary or list refresh fails
(and the cache did not serve the request), the handler leaves the cache cell
entirely unchanged — value and timestamp — and responds with a structured
failure: ok false plus the default zero-valued summary (respectively an
empty list) instead of propagating the raw error. -/
theorem refresh_failure_preserves_cache (suppressed : List String)
    (cache : Cache SummaryPayload) (dcache wcache : Cache (List CustomerRec))
    (e : String) (now : Int)
    (h1 : cacheFresh cache now = false) (h2 : cacheFresh dcache now = false)
    (h3 : cacheFresh wcache now = false) :
    statusSummaryRoute suppressed cache (.error e) now =
      ({ httpStatus := 200, ok := false, source := "error", error := some e,
         summary := none, errorSummary := some errorStatusSummary }, cache) ∧
    errorStatusSummary =
      { infrastructureEquipment := { good := 0, warning := 0, bad := 0, down := 0 }
        customerEquipment := { good := 0, warning := 0, bad := 0, down := 0, total := 0 } } ∧
    downCustomersRoute suppressed dcache (.error e) now =
      ({ httpStatus := 200, ok := false, source := "error", error := some e,
         customers := [], meta := none }, dcache) ∧
    warningCustomersRoute suppressed wcache (.error e) now =
      ({ httpStatus := 200, ok := false, source := "error", error := some e,
         customers := [], meta := none }, wcache) := by
  refine ⟨?_, rfl, ?_, ?_⟩
  · simp [statusSummaryRoute, h1]
  · simp [downCustomersRoute, customerListRoute, h2]
  · simp [warningCustomersRoute, customerListRoute, h3]

/-- Witness for C5 at a concrete stale cache holding a previous value: the
failing refresh returns the structured failure and hands back the cache cell
with its old value and timestamp intact. -/
theorem refresh_failure_preserves_cache_witness :
    statusSummaryRoute ["5"] ⟨60000, 1000, some payloadExample⟩ (.error "boom") 61001 =
      ({ httpStatus := 200, ok := false, source := "error", error := some "boom",
         summary := none, errorSummary := some errorStatusSummary },
       ⟨60000, 1000, some payloadExample⟩) :=
  (refresh_failure_preserves_cache ["5"] ⟨60000, 1000, some payloadExample⟩
    ⟨60000, 1000, some []⟩ ⟨60000, 1000, some []⟩ "boom" 61001
    (by decide) (by decide) (by decide)).1

/-- Claim C6: both suppression mutations (`POST`/`DELETE`
`/api/suppressions/accounts/:id`) finish by invalidating every summary/list
cache: afterwards all three timestamps are 0, so any later read at wall
clock at least one TTL past the epoch misses and cannot be served from a
cache entry populated before the mutation. -/
theorem suppression_mutation_invalidates_caches (s : AppState) (id : String) (now : Int) :
    ((suppressAccountRoute s id).summaryCache.ts = 0 ∧
     (suppressAccountRoute s id).downCache.ts = 0 ∧
     (suppressAccountRoute s id).warningCache.ts = 0 ∧
     (unsuppressAccountRoute s id).summaryCache.ts = 0 ∧
     (unsuppressAccountRoute s id).downCache.ts = 0 ∧
     (unsuppressAccountRoute s id).warningCache.ts = 0) ∧
    ((suppressAccountRoute s id).summaryCache.ttlMs ≤ now →
      cacheGet (suppressAccountRoute s id).summaryCache now = none) ∧
    ((suppressAccountRoute s id).downCache.ttlMs ≤ now →
      cacheGet (suppressAccountRoute s id).downCache now = none) ∧
    ((suppressAccountRoute s id).warningCache.ttlMs ≤ now →
      cacheGet (suppressAccountRoute s id).warningCache now = none) ∧
    ((unsuppressAccountRoute s id).summaryCache.ttlMs ≤ now →
      cacheGet (unsuppressAccountRoute s id).summaryCache now = none) ∧
    ((unsuppressAccountRoute s id).downCache.ttlMs ≤ now →
      cacheGet (unsuppressAccountRoute s id).downCache now = none) ∧
    ((unsuppressAccountRoute s id).warningCache.ttlMs ≤ now →
      cacheGet (unsuppressAccountRoute s id).warningCache now = none) := by
  refine ⟨⟨rfl, rfl, rfl, rfl, rfl, rfl⟩, ?_, ?_, ?_, ?_, ?_, ?_⟩ <;>
    exact fun h => cacheGet_of_ts_zero _ _ rfl h

/-- Witness for C6 at a concrete state whose caches were populated before
the mutation: immediately after suppressing an account, reads of all three
caches miss. -/
theorem suppression_mutation_invalidates_caches_witness :
    cacheGet (suppressAccountRoute
        ⟨["5"], ⟨60000, 500, some payloadExample⟩, ⟨60000, 500, some []⟩,
         ⟨60000, 500, some []⟩⟩ "7").summaryCache 60000 = none ∧
    cacheGet (suppressAccountRoute
        ⟨["5"], ⟨60000, 500, some payloadExample⟩, ⟨60000, 500, some []⟩,
         ⟨60000, 500, some []⟩⟩ "7").downCache 60000 = none ∧
    cacheGet (suppressAccountRoute
        ⟨["5"], ⟨60000, 500, some payloadExample⟩, ⟨60000, 500, some []⟩,
         ⟨60000, 500, some []⟩⟩ "7").warningCache 60000 = none :=
  ⟨(suppression_mutation_invalidates_caches
      ⟨["5"], ⟨60000, 500, some payloadExample⟩, ⟨60000, 500, some []⟩,
       ⟨60000, 500, some []⟩⟩ "7" 60000).2.1 (by decide),
   (suppression_mutation_invalidates_caches
      ⟨["5"], ⟨60000, 500, some payloadExample⟩, ⟨60000, 500, some []⟩,
       ⟨60000, 500, some []⟩⟩ "7" 60000).2.2.1 (by decide),
   (suppression_mutation_invalidates_caches
      ⟨["5"], ⟨60000, 500, some payloadExample⟩, ⟨60000, 500, some []⟩,
       ⟨60000, 500, some []⟩⟩ "7" 60000).2.2.2.1 (by decide)⟩

/-- Claim C10: every consumer-facing endpoint responds with HTTP status 200
on every input — including upstream failures and the missing
endpoint/token configuration error, which `getCustomerEquipmentSummary`
turns into an operation error — and a failed refresh is indicated solely by
ok false plus an error message in the body. -/
theorem endpoints_http200_spec :
    (∀ (suppressed : List String) (cache : Cache SummaryPayload)
        (upstream : Except String (UpstreamSummary × List CustomerRec × List CustomerRec))
        (now : Int),
      (statusSummaryRoute suppressed cache upstream now).1.httpStatus = 200) ∧
    (∀ (suppressed : List String) (cache : Cache (List CustomerRec))
        (upstream : Except String (List CustomerRec)) (now : Int),
      (downCustomersRoute suppressed cache upstream now).1.httpStatus = 200) ∧
    (∀ (suppressed : List String) (cache : Cache (List CustomerRec))
        (upstream : Except String (List CustomerRec)) (now : Int),
      (warningCustomersRoute suppressed cache upstream now).1.httpStatus = 200) ∧
    (∀ (suppressed : List String) (upstream : Except String (List CustomerRec)),
      (suppressedCustomersRoute suppressed upstream).httpStatus = 200) ∧
    (∀ (suppressed : List String) (cache : Cache SummaryPayload) (e : String) (now : Int),
      cacheFresh cache now = false →
        (statusSummaryRoute suppressed cache (.error e) now).1.ok = false ∧
        (statusSummaryRoute suppressed cache (.error e) now).1.error = some e) ∧
    (∀ (endpoint token : Option String) (request : Except String SonarCountsData),
      (endpoint.getD "" = "" ∨ token.getD "" = "") →
        getCustomerEquipmentSummary endpoint token request =
          .error "Missing SONAR_ENDPOINT or SONAR_TOKEN in .env") := by
  refine ⟨?_, ?_, ?_, ?_, ?_, ?_⟩
  · intro suppressed cache upstream now
    by_cases h : cacheFresh cache now = true
    · simp [statusSummaryRoute, h]
    · rw [Bool.not_eq_true] at h
      cases upstream with
      | ok v =>
        obtain ⟨s, d, w⟩ := v
        simp [statusSummaryRoute, h]
      | error e => simp [statusSummaryRoute, h]
  · intro suppressed cache upstream now
    by_cases h : cacheFresh cache now = true
    · simp [downCustomersRoute, customerListRoute, h]
    · rw [Bool.not_eq_true] at h
      cases upstream with
      | ok v => simp [downCustomersRoute, customerListRoute, h]
      | error e => simp [downCustomersRoute, customerListRoute, h]
  · intro suppressed cache upstream now
    by_cases h : cacheFresh cache now = true
    · simp [warningCustomersRoute, customerListRoute, h]
    · rw [Bool.not_eq_true] at h
      cases upstream with
      | ok v => simp [warningCustomersRoute, customerListRoute, h]
      | error e => simp [warningCustomersRoute, customerListRoute, h]
  · intro suppressed upstream
    by_cases h : suppressed.isEmpty = true
    · simp [suppressedCustomersRoute, h]
    · rw [Bool.not_eq_true] at h
      cases upstream with
      | ok v => simp [suppressedCustomersRoute, h]
      | error e => simp [suppressedCustomersRoute, h]
  · intro suppressed cache e now h
    constructor <;> simp [statusSummaryRoute, h]
  · intro endpoint token request h
    rcases h with h | h <;> simp [getCustomerEquipmentSummary, h]

/-- Witness for C10: a failing refresh against an empty cold cache responds
200 with ok false and the error message, and a missing endpoint is turned
into the configuration error. -/
theorem endpoints_http200_spec_witness :
    (statusSummaryRoute [] (makeCache SummaryPayload 60000) (.error "boom") 0).1.ok =
      false ∧
    getCustomerEquipmentSummary none (some "tok")
        (.ok ⟨some 1, some 1, some 0, some 0, some 0⟩) =
      .error "Missing SONAR_ENDPOINT or SONAR_TOKEN in .env" :=
  ⟨(endpoints_http200_spec.2.2.2.2.1 [] (makeCache SummaryPayload 60000) "boom" 0
      (by decide)).1,
   endpoints_http200_spec.2.2.2.2.2 none (some "tok")
      (.ok ⟨some 1, some 1, some 0, some 0, some 0⟩) (Or.inl rfl)⟩


/-- The head of a `dropWhile` residue fails the predicate. -/
theorem dropWhile_head_false {α : Type} (p : α → Bool) :
    ∀ (l : List α) (a : α) (t : List α), l.dropWhile p = a :: t → p a = false
  | [], a, t, h => by simp [List.dropWhile] at h
  | b :: l, a, t, h => by
    by_cases hb : p b = true
    · rw [List.dropWhile_cons_of_pos hb] at h
      exact dropWhile_head_false p l a t h
    · rw [Bool.not_eq_true] at hb
      rw [List.dropWhile_cons_of_neg (by simp [hb])] at h
      cases h
      exact hb

/-- `dropWhile` is idempotent. -/
theorem dropWhile_dropWhile {α : Type} (p : α → Bool) (l : List α) :
    (l.dropWhile p).dropWhile p = l.dropWhile p := by
  cases h : l.dropWhile p with
  | nil => simp
  | cons a t =>
    rw [List.dropWhile_cons_of_neg]
    simp [dropWhile_head_false p l a t h]

/-- Trimming is idempotent at the character-list level. -/
theorem trimChars_idem (l : List Char) : trimChars (trimChars l) = trimChars l := by
  unfold trimChars
  set p := isJsWhitespace with hp
  set l1 := l.dropWhile p with hl1
  set r := l1.reverse.dropWhile p with hr
  have hA : r.reverse.dropWhile p = r.reverse := by
    cases hrr : r.reverse with
    | nil => simp [hrr]
    | cons b t =>
      have hpre : r.reverse <+: l1 := by
        rw [← l1.reverse_reverse]
        exact List.reverse_prefix.mpr (List.dropWhile_suffix p)
      obtain ⟨t2, ht2⟩ := hpre
      rw [hrr] at ht2
      have hb : p b = false := by
        refine dropWhile_head_false p l b (t ++ t2) ?_
        exact (ht2.trans hl1).symm
      rw [List.dropWhile_cons_of_neg (by simp [hb])]
  rw [hA, List.reverse_reverse]
  have hd : List.dropWhile p r = r := by
    rw [hr]
    exact dropWhile_dropWhile p l1.reverse
  rw [hd]

/-- `jsTrim` is idempotent. -/
theorem jsTrim_idem (s : String) : jsTrim (jsTrim s) = jsTrim s := by
  show (⟨trimChars (String.data ⟨trimChars s.data⟩)⟩ : String) = ⟨trimChars s.data⟩
  rw [show String.data ⟨trimChars s.data⟩ = trimChars s.data from rfl]
  rw [trimChars_idem]

/-- Unfolding equation of `dedupKeepFirst` on a cons cell. -/
theorem dedupKeepFirst_cons (a : String) (l : List String) :
    dedupKeepFirst (a :: l) = a :: dedupKeepFirst (l.filter (fun x => !(x = a))) := by
  rw [dedupKeepFirst]

/-- The accumulator-passing implementation loop agrees with the spec-side
first-occurrence deduplication of the cleaned entries outside `seen`. -/
theorem uniqStringsAux_eq_dedup :
    ∀ (l : List (Option String)) (seen : List String),
      uniqStringsAux l seen =
        dedupKeepFirst ((cleanedStrings l).filter (fun s => !(seen.contains s)))
  | [], seen => by
    rw [show cleanedStrings [] = [] from rfl]
    rw [show List.filter (fun s => !(seen.contains s)) [] = [] from rfl]
    rw [show dedupKeepFirst [] = [] by rw [dedupKeepFirst]]
    rfl
  | v :: rest, seen => by
    have hunfold : uniqStringsAux (v :: rest) seen =
        (if jsTrim (jsStr v) = "" then uniqStringsAux rest seen
         else if seen.contains (jsTrim (jsStr v)) then uniqStringsAux rest seen
         else jsTrim (jsStr v) :: uniqStringsAux rest (jsTrim (jsStr v) :: seen)) := rfl
    have hclean : cleanedStrings (v :: rest) =
        if jsTrim (jsStr v) = "" then cleanedStrings rest
        else jsTrim (jsStr v) :: cleanedStrings rest := by
      by_cases h : jsTrim (jsStr v) = ""
      · simp [cleanedStrings, h]
      · simp [cleanedStrings, h]
    rw [hunfold, hclean]
    by_cases h1 : jsTrim (jsStr v) = ""
    · rw [if_pos h1, if_pos h1]
      exact uniqStringsAux_eq_dedup rest seen
    · rw [if_neg h1, if_neg h1]
      by_cases h2 : seen.contains (jsTrim (jsStr v)) = true
      · rw [if_pos h2]
        rw [List.filter_cons_of_neg (by rw [h2] ; simp)]
        exact uniqStringsAux_eq_dedup rest seen
      · rw [if_neg h2]
        rw [List.filter_cons_of_pos (by rw [Bool.not_eq_true] at h2 ; rw [h2] ; simp)]
        rw [dedupKeepFirst_cons]
        congr 1
        rw [List.filter_filter]
        rw [uniqStringsAux_eq_dedup rest (jsTrim (jsStr v) :: seen)]
        congr 1
        apply List.filter_congr
        intro x hx
        simp only [List.contains_cons, Bool.not_or, Bool.not_eq_true]
        by_cases hxs : x = jsTrim (jsStr v)
        · simp [hxs]
        · simp [hxs]

/-- `dedupKeepFirst` keeps exactly the members of its input. -/
theorem mem_dedupKeepFirst : ∀ (l : List String) (x : String),
    x ∈ dedupKeepFirst l ↔ x ∈ l
  | [], x => by
    rw [show dedupKeepFirst [] = [] by rw [dedupKeepFirst]]
  | a :: l, x => by
    rw [dedupKeepFirst_cons]
    constructor
    · intro h
      rcases List.mem_cons.mp h with h | h
      · exact h ▸ List.mem_cons_self a l
      · have := (mem_dedupKeepFirst _ x).mp h
        exact List.mem_cons_of_mem a (List.mem_of_mem_filter this)
    · intro h
      rcases List.mem_cons.mp h with h | h
      · exact h ▸ List.mem_cons_self a _
      · by_cases hxa : x = a
        · exact hxa ▸ List.mem_cons_self a _
        · refine List.mem_cons_of_mem a ((mem_dedupKeepFirst _ x).mpr ?_)
          refine List.mem_filter.mpr ⟨h, ?_⟩
          simp [hxa]
termination_by l => l.length
decreasing_by
  all_goals simp only [List.length_cons]
  all_goals exact Nat.lt_succ_of_le (List.length_filter_le _ _)

/-- `dedupKeepFirst` yields a duplicate-free list. -/
theorem nodup_dedupKeepFirst : ∀ (l : List String), (dedupKeepFirst l).Nodup
  | [] => by
    rw [show dedupKeepFirst [] = [] by rw [dedupKeepFirst]]
    exact List.nodup_nil
  | a :: l => by
    rw [dedupKeepFirst_cons]
    refine List.nodup_cons.mpr ⟨?_, nodup_dedupKeepFirst _⟩
    intro hmem
    have := List.mem_filter.mp ((mem_dedupKeepFirst _ a).mp hmem)
    simp at this
termination_by l => l.length
decreasing_by
  simp only [List.length_cons]
  exact Nat.lt_succ_of_le (List.length_filter_le _ _)

/-- Every cleaned entry is non-empty and trim-fixed. -/
theorem mem_cleanedStrings (l : List (Option String)) (x : String)
    (h : x ∈ cleanedStrings l) : x ≠ "" ∧ jsTrim x = x := by
  obtain ⟨hmem, hne⟩ := List.mem_filter.mp h
  obtain ⟨v, hv, hx⟩ := List.mem_map.mp hmem
  constructor
  · simpa using hne
  · rw [← hx]
    exact jsTrim_idem (jsStr v)

/-- On a list of non-empty trim-fixed strings, `firstNonEmpty` returns the
head (or the empty string when the list is empty). -/
theorem firstNonEmpty_head : ∀ (l : List String),
    (∀ x ∈ l, x ≠ "" ∧ jsTrim x = x) → firstNonEmpty l = l.head?.getD ""
  | [], _ => rfl
  | a :: l, h => by
    obtain ⟨hne, hfix⟩ := h a (List.mem_cons_self a l)
    show (if jsTrim a = "" then firstNonEmpty l else jsTrim a) = a
    rw [hfix, if_neg hne]

/-- `uniqStrings` refines the spec-side pipeline: clean (trim and drop
empties), then deduplicate keeping first occurrences. -/
theorem uniqStrings_eq_dedup (l : List (Option String)) :
    uniqStrings l = dedupKeepFirst (cleanedStrings l) := by
  unfold uniqStrings
  rw [uniqStringsAux_eq_dedup l []]
  congr 1
  refine List.filter_eq_self.mpr ?_
  intro a ha
  simp

/-- Every `uniqStrings` output entry is non-empty and trim-fixed. -/
theorem mem_uniqStrings (l : List (Option String)) (x : String)
    (h : x ∈ uniqStrings l) : x ≠ "" ∧ jsTrim x = x := by
  rw [uniqStrings_eq_dedup] at h
  exact mem_cleanedStrings l x ((mem_dedupKeepFirst _ x).mp h)

/-- Claim C9: for every mapped account, the derived address list (and the
`ipAddresses` list) is the cleaned input — empty and whitespace-only entries
removed — deduplicated keeping first occurrences in order, the result is
duplicate-free and free of empty strings, and the displayed address is the
first (hence first non-empty) entry of that list, the empty string when none
exists. -/
theorem mapDownAccount_address_spec (a : SonarAccountEntity) :
    uniqStrings a.addressLine1s = dedupKeepFirst (cleanedStrings a.addressLine1s) ∧
    (uniqStrings a.addressLine1s).Nodup ∧
    (∀ s ∈ uniqStrings a.addressLine1s, s ≠ "") ∧
    (mapDownAccount a).address = ((uniqStrings a.addressLine1s).head?).getD "" ∧
    (mapDownAccount a).ipAddresses = dedupKeepFirst (cleanedStrings a.subnets) ∧
    (mapDownAccount a).ipAddresses.Nodup := by
  refine ⟨uniqStrings_eq_dedup _, ?_, ?_, ?_, uniqStrings_eq_dedup _, ?_⟩
  · rw [uniqStrings_eq_dedup]
    exact nodup_dedupKeepFirst _
  · intro s hs
    exact (mem_uniqStrings _ s hs).1
  · exact firstNonEmpty_head _ (fun x hx => mem_uniqStrings _ x hx)
  · show (uniqStrings a.subnets).Nodup
    rw [uniqStrings_eq_dedup]
    exact nodup_dedupKeepFirst _
